import Mathlib

/-!
Verification of the CodeGuard retrieval-augmented analysis pipeline.

Shallow embedding of the repository's core components:
- `app/rag/chunker.py`      (CodeChunker)
- `app/rag/embeddings.py`   (EmbeddingGenerator)
- `app/rag/vector_store.py` (VectorStore)
- `app/core/llm.py`         (LLMEngine)
- `app/scanner/scanner.py`  (CodeScanner)
- `app/models/schemas.py`   (Severity, IssueType, ScanStatus, Location, Issue, ScanResult)

External collaborators (the tiktoken tokenizer, the sentence-transformer model,
the qdrant client, the LLM providers, git/filesystem ingestion) are modelled as
explicit function parameters or environment fields; where their behaviour
matters it follows the contracts stated in the specification and is marked
`Modelled from the spec:` in the doc comment.

Machine reals (embedding floats, similarity scores) are represented by `Int`:
no claim depends on the numeric semantics of the scalars, only on orderings
and on list structure.
-/

set_option linter.unusedVariables false

namespace CodeGuard

/-- Decidable equality for `Except` results, so that witnesses can be
checked by evaluation. -/
instance {ε α : Type} [DecidableEq ε] [DecidableEq α] : DecidableEq (Except ε α) :=
  fun x y =>
    match x, y with
    | Except.ok a, Except.ok b =>
      if h : a = b then isTrue (by rw [h])
      else isFalse (fun hc => h (Except.ok.inj hc))
    | Except.error a, Except.error b =>
      if h : a = b then isTrue (by rw [h])
      else isFalse (fun hc => h (Except.error.inj hc))
    | Except.ok _, Except.error _ => isFalse (fun hc => Except.noConfusion hc)
    | Except.error _, Except.ok _ => isFalse (fun hc => Except.noConfusion hc)

/-- Payload values stored in the vector index: strings or integers suffice for
everything the pipeline writes (file path, language, line numbers, sizes). -/
inductive PValue where
  | s (v : String)
  | n (v : Int)
deriving DecidableEq, Repr

/-- Python-dict-shaped data: an association list built in insertion order.
A key bound twice denotes what the later binding says (Python dict literal /
`**`-merge semantics). -/
abbrev Metadata := List (String × PValue)

/-- Chunk dictionary produced by `CodeChunker` (chunker.py lines 93-105):
`content`, `file_path`, `language`, `start_line`, `end_line` and a metadata
dict equal to the carried-in metadata plus a `chunk_index` key appended last.
The metadata dict is kept as the carried-in part (`metadata`) plus the
`chunk_index` field; `Chunk.metadataDict` reassembles the Python dict. -/
structure Chunk where
  content : String
  file_path : String
  language : String
  start_line : Nat
  end_line : Nat
  chunk_index : Nat
  metadata : Metadata
deriving DecidableEq, Repr

/-- The chunk's metadata dict as built at chunker.py lines 100-103:
`{**metadata, "chunk_index": len(chunks)}` (the `chunk_index` binding comes
last, so under last-binding-wins it overrides any carried-in key). -/
def Chunk.metadataDict (c : Chunk) : Metadata :=
  c.metadata ++ [("chunk_index", PValue.n c.chunk_index)]

/-- CodeChunker (chunker.py lines 17-34).  `count_tokens` models
`_count_tokens` (lines 199-204): the pluggable tiktoken encoding when it
loaded, otherwise the `len(text) // 4` fallback; either way a deterministic
function of the text. -/
structure CodeChunker where
  chunk_size : Nat
  chunk_overlap : Nat
  count_tokens : String → Nat

/-- The reference chunker instantiated with the `len(text) // 4` token-count
fallback and the default budgets (chunker.py lines 12-14, 203-204). -/
def exCk : CodeChunker :=
  { chunk_size := 500, chunk_overlap := 100, count_tokens := fun t => t.length / 4 }

/-- Split a character list at newline characters, Python `str.split("\n")`
semantics: returns the first line and the remaining lines, so the overall
line list is never empty (the empty text has one empty line). -/
def splitLinesAux : List Char → List Char × List (List Char)
  | [] => ([], [])
  | c :: rest =>
    let r := splitLinesAux rest
    if c = '\n' then ([], r.1 :: r.2) else (c :: r.1, r.2)

/-- Python `content.split("\n")` (chunker.py lines 80 and 145). -/
def splitPyLines (s : String) : List String :=
  ((splitLinesAux s.data).1 :: (splitLinesAux s.data).2).map String.mk

/-- Walk of `reversed(lines)` in `_get_overlap_lines` (chunker.py lines
211-216): accumulate token counts, stop before the first line that would push
the accumulated count over the overlap budget.  The list argument is the
reversed line list; the collected lines come out in that reversed order. -/
def getOverlapRevAux (tok : String → Nat) (overlap_tokens : Nat) :
    List String → Nat → List String
  | [], _ => []
  | l :: rest, tokens =>
    let line_tokens := tok l
    if overlap_tokens < tokens + line_tokens then []
    else l :: getOverlapRevAux tok overlap_tokens rest (tokens + line_tokens)

/-- `_get_overlap_lines` (chunker.py lines 206-218): trailing lines of the
just-closed chunk, walked backward under the overlap token budget, returned
in original order (Python builds them with `insert(0, line)`). -/
def get_overlap_lines (tok : String → Nat) (overlap_tokens : Nat)
    (lines : List String) : List String :=
  (getOverlapRevAux tok overlap_tokens lines.reverse 0).reverse

/-- Loop state of `_chunk_by_tokens` / `_chunk_by_structure`
(chunker.py lines 81-84 and 146-149). -/
structure ChunkState where
  chunks : List Chunk
  current_chunk_lines : List String
  current_tokens : Nat
  current_start_line : Nat
deriving Repr

/-- Initial loop state (chunker.py lines 146-149). -/
def initState : ChunkState :=
  { chunks := [], current_chunk_lines := [], current_tokens := 0, current_start_line := 1 }

/-- The chunk dict appended to `chunks` (chunker.py lines 155-168 for the
mid-loop close with `end_line := i - 1`, lines 181-195 for the final close
with `end_line := len(lines)`). -/
def mkChunk (fp lang : String) (md : Metadata) (st : ChunkState) (endLine : Nat) : Chunk :=
  { content := String.intercalate "\n" st.current_chunk_lines
    file_path := fp
    language := lang
    start_line := st.current_start_line
    end_line := endLine
    chunk_index := st.chunks.length
    metadata := md }

/-- One iteration of the line loop (chunker.py lines 151-179), at 1-based
line index `i`: if adding the line would exceed the chunk budget and the
current chunk is non-empty, close the chunk and reseed with the overlap
lines followed by the trigger line; otherwise append the line. -/
def chunkStep (ck : CodeChunker) (fp lang : String) (md : Metadata)
    (i : Nat) (line : String) (st : ChunkState) : ChunkState :=
  let line_tokens := ck.count_tokens line
  if ck.chunk_size < st.current_tokens + line_tokens ∧ st.current_chunk_lines ≠ [] then
    let overlap_lines := get_overlap_lines ck.count_tokens ck.chunk_overlap st.current_chunk_lines
    { chunks := st.chunks ++ [mkChunk fp lang md st (i - 1)]
      current_chunk_lines := overlap_lines ++ [line]
      current_tokens := ((overlap_lines ++ [line]).map ck.count_tokens).sum
      current_start_line := i - overlap_lines.length }
  else
    { st with
      current_chunk_lines := st.current_chunk_lines ++ [line]
      current_tokens := st.current_tokens + line_tokens }

/-- The `for i, line in enumerate(lines, start=1)` loop (chunker.py line 151). -/
def chunkLoop (ck : CodeChunker) (fp lang : String) (md : Metadata) :
    Nat → List String → ChunkState → ChunkState
  | _, [], st => st
  | i, l :: ls, st => chunkLoop ck fp lang md (i + 1) ls (chunkStep ck fp lang md i l st)

/-- Emission of the final still-open chunk (chunker.py lines 181-195): if any
lines remain they become one last chunk with `end_line = len(lines)`. -/
def chunkFinal (fp lang : String) (md : Metadata) (numLines : Nat)
    (st : ChunkState) : List Chunk :=
  if st.current_chunk_lines = [] then st.chunks
  else st.chunks ++ [mkChunk fp lang md st numLines]

/-- `_chunk_by_tokens` (chunker.py lines 137-197). -/
def CodeChunker.chunk_by_tokens (ck : CodeChunker) (content fp lang : String)
    (md : Metadata) : List Chunk :=
  let lines := splitPyLines content
  chunkFinal fp lang md lines.length (chunkLoop ck fp lang md 1 lines initState)

/-- `_chunk_by_structure` (chunker.py lines 72-135).  Its body is
line-for-line identical to `_chunk_by_tokens` (the structure-aware variant
was never specialised), so it is embedded as the same function. -/
def CodeChunker.chunk_by_structure (ck : CodeChunker) (content fp lang : String)
    (md : Metadata) : List Chunk :=
  ck.chunk_by_tokens content fp lang md

/-- Languages routed to `_chunk_by_structure` (chunker.py line 59). -/
def structureLanguages : List String :=
  ["python", "javascript", "typescript", "java", "go", "rust"]

/-- `chunk_file` (chunker.py lines 36-70), with `metadata=None` already
resolved to the empty dict by the caller side of the embedding. -/
def CodeChunker.chunk_file (ck : CodeChunker) (content fp lang : String)
    (md : Metadata) : List Chunk :=
  if lang ∈ structureLanguages then ck.chunk_by_structure content fp lang md
  else ck.chunk_by_tokens content fp lang md

/-! ### Overlap-walk lemmas -/

theorem getOverlapRevAux_take (tok : String → Nat) (b : Nat) :
    ∀ (rl : List String) (t : Nat),
      getOverlapRevAux tok b rl t = rl.take (getOverlapRevAux tok b rl t).length := by
  intro rl
  induction rl with
  | nil => intro t; rfl
  | cons l rest ih =>
    intro t
    by_cases h : b < t + tok l
    · simp [getOverlapRevAux, h]
    · simp only [getOverlapRevAux, if_neg h, List.length_cons, List.take_succ_cons,
        List.cons.injEq, true_and]
      exact ih (t + tok l)

theorem getOverlapRevAux_length_le (tok : String → Nat) (b : Nat) :
    ∀ (rl : List String) (t : Nat), (getOverlapRevAux tok b rl t).length ≤ rl.length := by
  intro rl
  induction rl with
  | nil => intro t; simp [getOverlapRevAux]
  | cons l rest ih =>
    intro t
    by_cases h : b < t + tok l
    · simp [getOverlapRevAux, h]
    · simp only [getOverlapRevAux, if_neg h, List.length_cons]
      exact Nat.succ_le_succ (ih (t + tok l))

theorem getOverlapRevAux_sum_le (tok : String → Nat) (b : Nat) :
    ∀ (rl : List String) (t : Nat), t ≤ b →
      t + ((getOverlapRevAux tok b rl t).map tok).sum ≤ b := by
  intro rl
  induction rl with
  | nil => intro t ht; simpa [getOverlapRevAux]
  | cons l rest ih =>
    intro t ht
    by_cases h : b < t + tok l
    · simpa [getOverlapRevAux, h]
    · have h' : t + tok l ≤ b := by omega
      have := ih (t + tok l) h'
      simp only [getOverlapRevAux, if_neg h, List.map_cons, List.sum_cons]
      omega

theorem getOverlapRevAux_maximal (tok : String → Nat) (b : Nat) :
    ∀ (rl : List String) (t k : Nat),
      (getOverlapRevAux tok b rl t).length < k → k ≤ rl.length →
      b < t + ((rl.take k).map tok).sum := by
  intro rl
  induction rl with
  | nil => intro t k h1 h2; simp at h2; omega
  | cons l rest ih =>
    intro t k h1 h2
    by_cases h : b < t + tok l
    · cases k with
      | zero => simp [getOverlapRevAux, h] at h1
      | succ k' =>
        simp only [List.take_succ_cons, List.map_cons, List.sum_cons]
        omega
    · cases k with
      | zero => omega
      | succ k' =>
        have h1' : (getOverlapRevAux tok b rest (t + tok l)).length < k' := by
          simp only [getOverlapRevAux, if_neg h, List.length_cons] at h1
          omega
        have h2' : k' ≤ rest.length := by simpa using h2
        have := ih (t + tok l) k' h1' h2'
        simp only [List.take_succ_cons, List.map_cons, List.sum_cons]
        omega

theorem reverse_take_suffix {α : Type} (n : Nat) (rl : List α) :
    (rl.take n).reverse <:+ rl.reverse :=
  ⟨(rl.drop n).reverse, by rw [← List.reverse_append, List.take_append_drop]⟩

/-- `_get_overlap_lines` returns a suffix of its input. -/
theorem get_overlap_lines_suffix (tok : String → Nat) (b : Nat) (lines : List String) :
    get_overlap_lines tok b lines <:+ lines := by
  unfold get_overlap_lines
  have h := getOverlapRevAux_take tok b lines.reverse 0
  rw [h]
  simpa using reverse_take_suffix _ lines.reverse

theorem get_overlap_lines_length_le (tok : String → Nat) (b : Nat) (lines : List String) :
    (get_overlap_lines tok b lines).length ≤ lines.length := by
  unfold get_overlap_lines
  simpa using getOverlapRevAux_length_le tok b lines.reverse 0

/-- The overlap lines stay within the overlap token budget. -/
theorem get_overlap_lines_sum_le (tok : String → Nat) (b : Nat) (lines : List String) :
    ((get_overlap_lines tok b lines).map tok).sum ≤ b := by
  unfold get_overlap_lines
  have := getOverlapRevAux_sum_le tok b lines.reverse 0 (Nat.zero_le b)
  simpa [List.map_reverse, List.sum_reverse] using this

/-- Any strictly longer suffix of the closed chunk's lines exceeds the
overlap token budget: the walked overlap is the maximal in-budget suffix. -/
theorem get_overlap_lines_maximal (tok : String → Nat) (b : Nat) (lines : List String)
    (s : List String) (hs : s <:+ lines)
    (hlen : (get_overlap_lines tok b lines).length < s.length) :
    b < (s.map tok).sum := by
  obtain ⟨t, ht⟩ := hs
  have hrev : lines.reverse = s.reverse ++ t.reverse := by
    rw [← ht, List.reverse_append]
  have htake : lines.reverse.take s.length = s.reverse := by
    rw [hrev]
    have h' := List.take_left s.reverse t.reverse
    rw [List.length_reverse] at h'
    exact h'
  have hk1 : (getOverlapRevAux tok b lines.reverse 0).length < s.length := by
    have : (get_overlap_lines tok b lines).length
        = (getOverlapRevAux tok b lines.reverse 0).length := by
      simp [get_overlap_lines]
    omega
  have hk2 : s.length ≤ lines.reverse.length := by
    simp only [List.length_reverse]
    rw [← ht]
    simp
  have hmax := getOverlapRevAux_maximal tok b lines.reverse 0 s.length hk1 hk2
  rw [htake] at hmax
  simpa [List.map_reverse, List.sum_reverse] using hmax

/-! ### Chunk-loop invariant -/

/-- Invariant of the chunking loop, holding before the 1-based line index `i`
is processed.  The bookkeeping below is exactly what `_chunk_by_tokens`
maintains through chunker.py lines 151-179. -/
structure ChunkInv (i : Nat) (st : ChunkState) : Prop where
  start_pos : 1 ≤ st.current_start_line
  empty_init : st.current_chunk_lines = [] →
    st.chunks = [] ∧ st.current_start_line = 1 ∧ i = 1
  len_rel : st.current_chunk_lines ≠ [] →
    st.current_chunk_lines.length + st.current_start_line = i
  idx : st.chunks.map Chunk.chunk_index = List.range st.chunks.length
  adj : List.Chain' (fun a b => b.start_line ≤ a.end_line + 1) st.chunks
  head_one : ∀ c, st.chunks.head? = some c → c.start_line = 1
  no_chunks_start : st.chunks = [] → st.current_start_line = 1
  link : ∀ c, st.chunks.getLast? = some c → st.current_start_line ≤ c.end_line + 1

theorem initState_inv : ChunkInv 1 initState := by
  constructor <;> simp [initState]

theorem chunkStep_inv (ck : CodeChunker) (fp lang : String) (md : Metadata)
    (i : Nat) (line : String) (st : ChunkState) (h : ChunkInv i st) :
    ChunkInv (i + 1) (chunkStep ck fp lang md i line st) := by
  unfold chunkStep
  by_cases hc : ck.chunk_size < st.current_tokens + ck.count_tokens line ∧
      st.current_chunk_lines ≠ []
  · rw [if_pos hc]
    have hlen := h.len_rel hc.2
    have hov : (get_overlap_lines ck.count_tokens ck.chunk_overlap
        st.current_chunk_lines).length ≤ st.current_chunk_lines.length :=
      get_overlap_lines_length_le _ _ _
    have hcl : 1 ≤ st.current_chunk_lines.length :=
      List.length_pos.mpr hc.2
    have hstart := h.start_pos
    constructor
    · simp only
      omega
    · intro hemp
      simp at hemp
    · intro _
      simp only [List.length_append, List.length_cons, List.length_nil]
      omega
    · simp only [List.map_append, List.length_append, h.idx, mkChunk, List.map_cons,
        List.map_nil, List.length_cons, List.length_nil]
      rw [List.range_succ]
    · simp only
      rw [List.chain'_append]
      refine ⟨h.adj, List.chain'_singleton _, ?_⟩
      intro x hx y hy
      simp only [List.head?_cons, Option.mem_def, Option.some.injEq] at hy
      subst hy
      exact h.link x hx
    · intro c hcone
      rcases hchunks : st.chunks with _ | ⟨c0, cs⟩
      · simp only [hchunks, List.nil_append, List.head?_cons, Option.some.injEq] at hcone
        subst hcone
        simp [mkChunk, h.no_chunks_start hchunks]
      · rw [hchunks] at hcone
        simp only [List.cons_append, List.head?_cons, Option.some.injEq] at hcone
        subst hcone
        apply h.head_one
        rw [hchunks]
        rfl
    · intro hemp
      simp at hemp
    · intro c hclast
      simp only [List.getLast?_concat, Option.some.injEq] at hclast
      subst hclast
      simp only [mkChunk]
      omega
  · rw [if_neg hc]
    constructor
    · exact h.start_pos
    · intro hemp
      simp at hemp
    · intro _
      simp only [List.length_append, List.length_cons, List.length_nil]
      rcases hcur : st.current_chunk_lines with _ | ⟨l0, ls⟩
      · obtain ⟨_, h2, h3⟩ := h.empty_init hcur
        simp [hcur, h2, h3]
      · have := h.len_rel (by simp [hcur])
        rw [hcur] at this
        simp only [List.length_cons] at this ⊢
        omega
    · exact h.idx
    · exact h.adj
    · exact h.head_one
    · exact h.no_chunks_start
    · exact h.link

theorem chunkLoop_inv (ck : CodeChunker) (fp lang : String) (md : Metadata)
    (ls : List String) :
    ∀ (i : Nat) (st : ChunkState), ChunkInv i st →
      ChunkInv (i + ls.length) (chunkLoop ck fp lang md i ls st) := by
  induction ls with
  | nil => intro i st h; simpa [chunkLoop]
  | cons l rest ih =>
    intro i st h
    have hstep := chunkStep_inv ck fp lang md i l st h
    have := ih (i + 1) _ hstep
    simp only [chunkLoop, List.length_cons]
    have harith : i + 1 + rest.length = i + (rest.length + 1) := by omega
    rw [harith] at this
    exact this

theorem chunkStep_cur_ne (ck : CodeChunker) (fp lang : String) (md : Metadata)
    (i : Nat) (line : String) (st : ChunkState) :
    (chunkStep ck fp lang md i line st).current_chunk_lines ≠ [] := by
  unfold chunkStep
  by_cases hc : ck.chunk_size < st.current_tokens + ck.count_tokens line ∧
      st.current_chunk_lines ≠ []
  · rw [if_pos hc]; simp
  · rw [if_neg hc]; simp

theorem chunkLoop_cur_ne (ck : CodeChunker) (fp lang : String) (md : Metadata)
    (ls : List String) :
    ∀ (i : Nat) (st : ChunkState),
      (ls ≠ [] ∨ st.current_chunk_lines ≠ []) →
      (chunkLoop ck fp lang md i ls st).current_chunk_lines ≠ [] := by
  induction ls with
  | nil =>
    intro i st h
    rcases h with h | h
    · exact absurd rfl h
    · simpa [chunkLoop]
  | cons l rest ih =>
    intro i st _
    simp only [chunkLoop]
    exact ih (i + 1) _ (Or.inr (chunkStep_cur_ne ck fp lang md i l st))

theorem splitPyLines_ne_nil (s : String) : splitPyLines s ≠ [] := by
  simp [splitPyLines]

theorem chunk_file_eq (ck : CodeChunker) (content fp lang : String) (md : Metadata) :
    ck.chunk_file content fp lang md = ck.chunk_by_tokens content fp lang md := by
  simp [CodeChunker.chunk_file, CodeChunker.chunk_by_structure]

theorem chunk_by_tokens_coverage (ck : CodeChunker) (content fp lang : String)
    (md : Metadata) :
    (ck.chunk_by_tokens content fp lang md).head?.map Chunk.start_line = some 1 ∧
    ((ck.chunk_by_tokens content fp lang md).getLast?).map Chunk.end_line
        = some (splitPyLines content).length ∧
    List.Chain' (fun a b => b.start_line ≤ a.end_line + 1)
        (ck.chunk_by_tokens content fp lang md) ∧
    (ck.chunk_by_tokens content fp lang md).map Chunk.chunk_index
        = List.range (ck.chunk_by_tokens content fp lang md).length := by
  have hinv := chunkLoop_inv ck fp lang md (splitPyLines content) 1 initState initState_inv
  have hcur := chunkLoop_cur_ne ck fp lang md (splitPyLines content) 1 initState
    (Or.inl (splitPyLines_ne_nil content))
  set st := chunkLoop ck fp lang md 1 (splitPyLines content) initState with hst
  have hcs : ck.chunk_by_tokens content fp lang md
      = st.chunks ++ [mkChunk fp lang md st (splitPyLines content).length] := by
    unfold CodeChunker.chunk_by_tokens
    show chunkFinal fp lang md (splitPyLines content).length
        (chunkLoop ck fp lang md 1 (splitPyLines content) initState)
      = st.chunks ++ [mkChunk fp lang md st (splitPyLines content).length]
    rw [← hst, chunkFinal, if_neg hcur]
  rw [hcs]
  refine ⟨?_, ?_, ?_, ?_⟩
  · rcases hch : st.chunks with _ | ⟨c0, cs0⟩
    · simp only [hch, List.nil_append, List.head?_cons, Option.map_some]
      simp [mkChunk, hinv.no_chunks_start hch]
    · simp only [hch, List.cons_append, List.head?_cons, Option.map_some]
      have := hinv.head_one c0 (by rw [hch]; rfl)
      simp [this]
  · simp [List.getLast?_concat, mkChunk]
  · rw [List.chain'_append]
    refine ⟨hinv.adj, List.chain'_singleton _, ?_⟩
    intro x hx y hy
    simp only [List.head?_cons, Option.mem_def, Option.some.injEq] at hy
    subst hy
    simp only [mkChunk]
    exact hinv.link x hx
  · simp only [List.map_append, List.length_append, hinv.idx, mkChunk, List.map_cons,
      List.map_nil, List.length_cons, List.length_nil]
    rw [List.range_succ]

/-- C1: for every file (whose line count `N = len(content.split("\n"))` is
always at least 1), the chunks emitted by `chunk_file` cover `[1, N]` with no
gap: the first chunk starts at line 1, each subsequent chunk starts at or
before the previous chunk's end line plus one, the final chunk ends at line
`N`, and the `chunk_index` metadata values are exactly `0, 1, 2, ...` in
order (strictly increasing from 0). -/
theorem chunk_file_coverage (ck : CodeChunker) (content fp lang : String)
    (md : Metadata) :
    (ck.chunk_file content fp lang md).head?.map Chunk.start_line = some 1 ∧
    ((ck.chunk_file content fp lang md).getLast?).map Chunk.end_line
        = some (splitPyLines content).length ∧
    List.Chain' (fun a b => b.start_line ≤ a.end_line + 1)
        (ck.chunk_file content fp lang md) ∧
    (ck.chunk_file content fp lang md).map Chunk.chunk_index
        = List.range (ck.chunk_file content fp lang md).length := by
  rw [chunk_file_eq]
  exact chunk_by_tokens_coverage ck content fp lang md

/-- C2 counterexample: the claim says an empty file yields an empty chunk
list, but `"".split("\n")` is `[""]` in Python, so the chunker emits one
chunk for empty content. -/
theorem chunk_file_empty_counterexample :
    exCk.chunk_file "" "app.py" "python" [] ≠ [] := by decide

/-- C2 amended: for empty content the chunker returns exactly one chunk —
the empty chunk covering line range `[1, 1]` — because Python's
`"".split("\n")` produces one empty line, which the final-chunk emission at
chunker.py lines 181-195 always flushes. -/
theorem chunk_file_empty_amended (ck : CodeChunker) (fp lang : String) (md : Metadata) :
    ck.chunk_file "" fp lang md =
      [{ content := "", file_path := fp, language := lang,
         start_line := 1, end_line := 1, chunk_index := 0, metadata := md }] := by
  rw [chunk_file_eq]
  show chunkFinal fp lang md (splitPyLines "").length
      (chunkLoop ck fp lang md 1 (splitPyLines "") initState) = _
  have hsplit : splitPyLines "" = [""] := rfl
  rw [hsplit]
  simp only [chunkLoop, chunkStep, initState, List.length_cons, List.length_nil]
  rw [if_neg (by simp)]
  simp [chunkFinal, mkChunk]
  rfl

/-- C3: whenever the running token count would exceed the `chunk_size`
budget and the current chunk is non-empty, the reseeded chunk is exactly the
overlap lines followed by the trigger line, the new `start_line` is the
trigger index minus the number of overlap lines, and the overlap lines are
the maximal suffix of the closed chunk's lines whose token total stays
within the `chunk_overlap` budget (walking backward, stopping before the
first line that would exceed it). -/
theorem chunk_split_overlap_seed (ck : CodeChunker) (fp lang : String) (md : Metadata)
    (i : Nat) (line : String) (st : ChunkState)
    (hover : ck.chunk_size < st.current_tokens + ck.count_tokens line)
    (hne : st.current_chunk_lines ≠ []) :
    (chunkStep ck fp lang md i line st).current_chunk_lines
        = get_overlap_lines ck.count_tokens ck.chunk_overlap st.current_chunk_lines
            ++ [line] ∧
    (chunkStep ck fp lang md i line st).current_start_line
        = i - (get_overlap_lines ck.count_tokens ck.chunk_overlap
            st.current_chunk_lines).length ∧
    get_overlap_lines ck.count_tokens ck.chunk_overlap st.current_chunk_lines
        <:+ st.current_chunk_lines ∧
    ((get_overlap_lines ck.count_tokens ck.chunk_overlap st.current_chunk_lines).map
        ck.count_tokens).sum ≤ ck.chunk_overlap ∧
    ∀ suf, suf <:+ st.current_chunk_lines →
      (get_overlap_lines ck.count_tokens ck.chunk_overlap
          st.current_chunk_lines).length < suf.length →
      ck.chunk_overlap < (suf.map ck.count_tokens).sum := by
  have hc : ck.chunk_size < st.current_tokens + ck.count_tokens line ∧
      st.current_chunk_lines ≠ [] := ⟨hover, hne⟩
  unfold chunkStep
  rw [if_pos hc]
  exact ⟨rfl, rfl, get_overlap_lines_suffix _ _ _, get_overlap_lines_sum_le _ _ _,
    fun suf hs hl => get_overlap_lines_maximal _ _ _ suf hs hl⟩

/-- A chunker with tiny budgets used to exercise the split path. -/
def exCk3 : CodeChunker :=
  { chunk_size := 3, chunk_overlap := 1, count_tokens := String.length }

/-- Split state just before a trigger line: two lines totalling 3 tokens. -/
def exSt : ChunkState :=
  { chunks := [], current_chunk_lines := ["ab", "c"], current_tokens := 3,
    current_start_line := 1 }

theorem chunk_split_overlap_seed_witness :
    (chunkStep exCk3 "f.py" "python" [] 3 "dd" exSt).current_chunk_lines = ["c", "dd"] ∧
    (chunkStep exCk3 "f.py" "python" [] 3 "dd" exSt).current_start_line = 2 := by
  have h := chunk_split_overlap_seed exCk3 "f.py" "python" [] 3 "dd" exSt
    (by decide) (by decide)
  exact ⟨h.1.trans (by decide), h.2.1.trans (by decide)⟩

/-! ### Embedder (`app/rag/embeddings.py`) -/

/-- Embedding vector.  The scalar type stands in for the model's floats; no
claim depends on the arithmetic of the entries. -/
abbrev Vec := List Int

/-- Modelled from the spec: the underlying sentence-transformer `encode`
call maps each input text independently to one vector, order-preserving and
1:1 with the input (spec §4.2); a failure of the underlying model propagates.
The per-text behaviour is the parameter `g`. -/
def encodeList (g : String → Except String Vec) : List String → Except String (List Vec)
  | [] => Except.ok []
  | t :: ts =>
    match g t with
    | Except.error e => Except.error e
    | Except.ok v =>
      match encodeList g ts with
      | Except.error e => Except.error e
      | Except.ok vs => Except.ok (v :: vs)

/-- `generate_embeddings` (embeddings.py lines 29-44): empty input returns
`[]` before the model is ever consulted, otherwise the batch is encoded. -/
def generate_embeddings (g : String → Except String Vec) (texts : List String) :
    Except String (List Vec) :=
  if texts = [] then Except.ok [] else encodeList g texts

/-- `generate_embedding` (embeddings.py lines 46-57): encode the singleton
batch `[text]` and take element 0. -/
def generate_embedding (g : String → Except String Vec) (text : String) :
    Except String Vec :=
  match encodeList g [text] with
  | Except.error e => Except.error e
  | Except.ok vs =>
    match vs.head? with
    | some v => Except.ok v
    | none => Except.error "IndexError: list index out of range"

theorem encodeList_ok_length (g : String → Except String Vec) :
    ∀ (texts : List String) (out : List Vec),
      encodeList g texts = Except.ok out → out.length = texts.length := by
  intro texts
  induction texts with
  | nil =>
    intro out h
    simp only [encodeList, Except.ok.injEq] at h
    simp [← h]
  | cons t ts ih =>
    intro out h
    simp only [encodeList] at h
    cases hg : g t with
    | error e => rw [hg] at h; simp at h
    | ok v =>
      rw [hg] at h
      cases he : encodeList g ts with
      | error e => rw [he] at h; simp at h
      | ok vs =>
        rw [he] at h
        simp only [Except.ok.injEq] at h
        subst h
        simp [ih vs he]

theorem encodeList_ok_getD (g : String → Except String Vec) :
    ∀ (texts : List String) (out : List Vec),
      encodeList g texts = Except.ok out → ∀ k, k < texts.length →
        g (texts.getD k "") = Except.ok (out.getD k []) := by
  intro texts
  induction texts with
  | nil => intro out _ k hk; simp at hk
  | cons t ts ih =>
    intro out h k hk
    simp only [encodeList] at h
    cases hg : g t with
    | error e => rw [hg] at h; simp at h
    | ok v =>
      rw [hg] at h
      cases he : encodeList g ts with
      | error e => rw [he] at h; simp at h
      | ok vs =>
        rw [he] at h
        simp only [Except.ok.injEq] at h
        subst h
        cases k with
        | zero => simpa using hg
        | succ k' =>
          simp only [List.getD_cons_succ]
          exact ih vs he k' (by simpa using hk)

theorem encodeList_ok_set (g : String → Except String Vec) :
    ∀ (texts : List String) (out : List Vec) (i : Nat) (x : String) (v : Vec),
      encodeList g texts = Except.ok out → g x = Except.ok v →
      encodeList g (texts.set i x) = Except.ok (out.set i v) := by
  intro texts
  induction texts with
  | nil =>
    intro out i x v h _
    simp only [encodeList, Except.ok.injEq] at h
    simp [← h, encodeList]
  | cons t ts ih =>
    intro out i x v h hx
    simp only [encodeList] at h
    cases hg : g t with
    | error e => rw [hg] at h; simp at h
    | ok w =>
      rw [hg] at h
      cases he : encodeList g ts with
      | error e => rw [he] at h; simp at h
      | ok vs =>
        rw [he] at h
        simp only [Except.ok.injEq] at h
        subst h
        cases i with
        | zero =>
          simp only [List.set_cons_zero, encodeList, hx, he]
        | succ i' =>
          simp only [List.set_cons_succ, encodeList, hg, ih vs i' x v he hx]

/-- C9: the Embedder contract.  (a) `embed([]) == []` for every underlying
model `g` — in particular the result does not depend on `g`, so the model is
not invoked; (b) one output vector per input text; (c) order preservation:
swapping two input texts swaps the corresponding output vectors; (d)
`embedOne(text)` equals `embed([text])[0]` (with the same IndexError
behaviour Python's `[0]` would have).  The function is total: failures are
explicit `Except.error` values that propagate, per spec §4.2. -/
theorem embedder_contract (g : String → Except String Vec) :
    generate_embeddings g [] = Except.ok [] ∧
    (∀ (texts : List String) (out : List Vec),
      generate_embeddings g texts = Except.ok out → out.length = texts.length) ∧
    (∀ (texts : List String) (out : List Vec) (i j : Nat),
      i < texts.length → j < texts.length →
      generate_embeddings g texts = Except.ok out →
      generate_embeddings g ((texts.set i (texts.getD j "")).set j (texts.getD i ""))
        = Except.ok ((out.set i (out.getD j [])).set j (out.getD i []))) ∧
    (∀ text, generate_embedding g text
        = (generate_embeddings g [text]).bind fun vs =>
            match vs.head? with
            | some v => Except.ok v
            | none => Except.error "IndexError: list index out of range") := by
  refine ⟨rfl, ?_, ?_, ?_⟩
  · intro texts out h
    cases texts with
    | nil =>
      simp [generate_embeddings] at h
      simp [h]
    | cons t ts =>
      rw [generate_embeddings, if_neg (by simp)] at h
      exact encodeList_ok_length g (t :: ts) out h
  · intro texts out i j hi hj h
    have hne : texts ≠ [] := by
      intro hnil
      rw [hnil] at hi
      simp at hi
    rw [generate_embeddings, if_neg hne] at h
    have hgj := encodeList_ok_getD g texts out h j hj
    have hgi := encodeList_ok_getD g texts out h i hi
    have h1 := encodeList_ok_set g texts out i (texts.getD j "") (out.getD j []) h hgj
    have h2 := encodeList_ok_set g (texts.set i (texts.getD j ""))
      (out.set i (out.getD j [])) j (texts.getD i "") (out.getD i []) h1 hgi
    have hne2 : (texts.set i (texts.getD j "")).set j (texts.getD i "") ≠ [] := by
      intro hnil
      have := congrArg List.length hnil
      simp at this
      rw [this] at hi
      simp at hi
    rw [generate_embeddings, if_neg hne2]
    exact h2
  · intro text
    cases hg : g text with
    | error e =>
      simp [generate_embedding, generate_embeddings, encodeList, hg, Except.bind]
    | ok v =>
      simp [generate_embedding, generate_embeddings, encodeList, hg, Except.bind]

/-- Reference per-text model used by witnesses: embeds a text as the
one-entry vector holding its length. -/
def exG : String → Except String Vec := fun t => Except.ok [(t.length : Int)]

theorem embedder_contract_witness :
    generate_embeddings exG [] = Except.ok [] ∧
    ([[1], [2]] : List Vec).length = (["a", "bb"] : List String).length ∧
    generate_embeddings exG
        (((["a", "bb"] : List String).set 0 (["a", "bb"].getD 1 "")).set 1
          (["a", "bb"].getD 0 ""))
      = Except.ok ((([[1], [2]] : List Vec).set 0 ([[1], [2]].getD 1 [])).set 1
          ([[1], [2]].getD 0 [])) := by
  have h := embedder_contract exG
  refine ⟨h.1, h.2.1 ["a", "bb"] [[1], [2]] (by rfl),
    h.2.2.1 ["a", "bb"] [[1], [2]] 0 1 (by decide) (by decide) (by rfl)⟩

/-! ### Vector store (`app/rag/vector_store.py`) -/

/-- Python dict lookup on an insertion-ordered association list: the last
binding of a key wins (later duplicate keys in a dict literal / `**`-merge
override earlier ones). -/
def dictGet (d : Metadata) (k : String) : Option PValue :=
  ((d.filter (fun kv => kv.1 == k)).getLast?).map Prod.snd

/-- Python `dict.items()` view of an insertion-ordered association list:
keys appear at their first-insertion position carrying their last-bound
value.  Fuel-structured so that it evaluates in the kernel; the fuel
`d.length` always suffices. -/
def dictItemsFuel : Nat → Metadata → Metadata
  | 0, _ => []
  | _, [] => []
  | fuel + 1, (k, v) :: rest =>
    (k, (((rest.filter (fun kv => kv.1 == k)).map Prod.snd).getLastD v))
      :: dictItemsFuel fuel (rest.filter (fun kv => kv.1 != k))

def dictItems (d : Metadata) : Metadata := dictItemsFuel d.length d

/-- `PointStruct` (vector_store.py lines 67-81): id, vector, payload. -/
structure PointStruct where
  id : String
  vector : Vec
  payload : Metadata
deriving DecidableEq, Repr

/-- Payload written for one chunk (vector_store.py lines 71-79): the five
chunk fields, the `scan_id` tag, then the chunk's metadata dict merged last
(so a metadata key equal to an earlier key would override it, Python
`**`-merge semantics). -/
def chunkPayload (c : Chunk) (scan_id : String) : Metadata :=
  [("content", PValue.s c.content), ("file_path", PValue.s c.file_path),
   ("language", PValue.s c.language), ("start_line", PValue.n c.start_line),
   ("end_line", PValue.n c.end_line), ("scan_id", PValue.s scan_id)]
  ++ c.metadataDict

/-- The `for chunk, embedding in zip(chunks, embeddings)` loop of
`add_chunks` (vector_store.py lines 64-81); `ids` models the independent
`uuid.uuid4()` generator (content-independent, one fresh id per point). -/
def mkPointsAux (ids : Nat → String) (scan_id : String) :
    Nat → List (Chunk × Vec) → List PointStruct
  | _, [] => []
  | k, pr :: rest =>
    { id := ids k, vector := pr.2, payload := chunkPayload pr.1 scan_id }
      :: mkPointsAux ids scan_id (k + 1) rest

def mkPoints (ids : Nat → String) (chunks : List Chunk) (embeddings : List Vec)
    (scan_id : String) : List PointStruct :=
  mkPointsAux ids scan_id 0 (chunks.zip embeddings)

/-- `add_chunks` (vector_store.py lines 47-88): raise `ValueError` when the
chunk and embedding counts differ, otherwise append one point per pair to
the shared collection (the returned list is the collection after the
upsert). -/
def add_chunks (ids : Nat → String) (store : List PointStruct) (chunks : List Chunk)
    (embeddings : List Vec) (scan_id : String) : Except String (List PointStruct) :=
  if chunks.length ≠ embeddings.length then
    Except.error "Chunks and embeddings must have same length"
  else Except.ok (store ++ mkPoints ids chunks embeddings scan_id)

/-- Equality conditions built from `filter_dict` (vector_store.py lines
107-117): every listed key must match the payload value exactly. -/
def matchesFilter (flt : Option Metadata) (payload : Metadata) : Bool :=
  match flt with
  | none => true
  | some conds => conds.all (fun kv => dictGet payload kv.1 == some kv.2)

/-- Modelled from the spec: the qdrant client's `search` (the wire contract
of spec §4.3/§6 — the client itself is an external collaborator, absent from
the repository): restrict to payloads matching the equality filters, rank by
descending similarity score against the query vector, return at most
`limit` points.  `sim` is the collection's similarity (cosine in the
reference deployment). -/
def clientSearch (sim : Vec → Vec → Int) (points : List PointStruct) (query : Vec)
    (limit : Nat) (query_filter : Option Metadata) : List PointStruct :=
  ((points.filter (fun p => matchesFilter query_filter p.payload)).insertionSort
    (fun a b => sim query b.vector ≤ sim query a.vector)).take limit

def knownKeys : List String :=
  ["content", "file_path", "language", "start_line", "end_line"]

/-- Search result dict (vector_store.py lines 126-141): score, the five
chunk fields looked up in the payload, and the remaining payload items as
`metadata`. -/
structure SearchResult where
  score : Int
  content : Option PValue
  file_path : Option PValue
  language : Option PValue
  start_line : Option PValue
  end_line : Option PValue
  metadata : Metadata
deriving DecidableEq, Repr

/-- `VectorStore.search` (vector_store.py lines 90-141).  An absent or empty
`filter_dict` is falsy in Python, so no filter is applied in that case. -/
def VectorStore.search (sim : Vec → Vec → Int) (store : List PointStruct)
    (query_embedding : Vec) (limit : Nat) (filter_dict : Option Metadata) :
    List SearchResult :=
  let query_filter : Option Metadata :=
    match filter_dict with
    | none => none
    | some fd => if fd = [] then none else some fd
  (clientSearch sim store query_embedding limit query_filter).map fun r =>
    { score := sim query_embedding r.vector
      content := dictGet r.payload "content"
      file_path := dictGet r.payload "file_path"
      language := dictGet r.payload "language"
      start_line := dictGet r.payload "start_line"
      end_line := dictGet r.payload "end_line"
      metadata := (dictItems r.payload).filter (fun kv => !(knownKeys.contains kv.1)) }

theorem mkPointsAux_length (ids : Nat → String) (scan_id : String) :
    ∀ (k : Nat) (l : List (Chunk × Vec)), (mkPointsAux ids scan_id k l).length = l.length := by
  intro k l
  induction l generalizing k with
  | nil => rfl
  | cons pr rest ih => simp [mkPointsAux, ih]

theorem mkPointsAux_mem (ids : Nat → String) (scan_id : String) :
    ∀ (k : Nat) (l : List (Chunk × Vec)) (p : PointStruct),
      p ∈ mkPointsAux ids scan_id k l →
      ∃ pr ∈ l, p.vector = pr.2 ∧ p.payload = chunkPayload pr.1 scan_id := by
  intro k l
  induction l generalizing k with
  | nil => intro p hp; simp [mkPointsAux] at hp
  | cons pr rest ih =>
    intro p hp
    simp only [mkPointsAux, List.mem_cons] at hp
    rcases hp with hp | hp
    · exact ⟨pr, by simp, by simp [hp], by simp [hp]⟩
    · obtain ⟨pr', hpr', hv, hpl⟩ := ih (k + 1) p hp
      exact ⟨pr', by simp [hpr'], hv, hpl⟩

/-- Payloads built by `add_chunks` carry the `scan_id` tag as long as the
chunk's carried-in metadata does not itself rebind the `scan_id` key (the
orchestrator only ever passes `file_size`/`lines`, plus the chunker's
`chunk_index`). -/
theorem chunkPayload_scan_id (c : Chunk) (sid : String)
    (h : c.metadata.all (fun kv => kv.1 != "scan_id") = true) :
    dictGet (chunkPayload c sid) "scan_id" = some (PValue.s sid) := by
  have hmeta : c.metadata.filter (fun kv => kv.1 == "scan_id") = [] := by
    rw [List.filter_eq_nil_iff]
    intro kv hkv
    have := List.all_eq_true.mp h kv hkv
    simpa using this
  simp [dictGet, chunkPayload, Chunk.metadataDict, List.filter_append, hmeta]

/-- C6: `add_chunks` fails (never yields a post-upsert collection, so the
store is unchanged) exactly when the chunk and embedding counts differ; on
matching counts it succeeds, appending exactly one point per (chunk, vector)
pair, and every appended point's payload carries the given `scan_id` tag
(under the invariant that the chunk metadata does not rebind `scan_id`). -/
theorem add_chunks_contract (ids : Nat → String) (store : List PointStruct)
    (chunks : List Chunk) (embeddings : List Vec) (scan_id : String) :
    ((∀ newStore, add_chunks ids store chunks embeddings scan_id ≠ Except.ok newStore)
        ↔ chunks.length ≠ embeddings.length) ∧
    (chunks.length = embeddings.length →
      add_chunks ids store chunks embeddings scan_id
        = Except.ok (store ++ mkPoints ids chunks embeddings scan_id) ∧
      (mkPoints ids chunks embeddings scan_id).length = chunks.length ∧
      ∀ p ∈ mkPoints ids chunks embeddings scan_id,
        ∃ pr ∈ chunks.zip embeddings,
          p.vector = pr.2 ∧ p.payload = chunkPayload pr.1 scan_id ∧
          (pr.1.metadata.all (fun kv => kv.1 != "scan_id") = true →
            dictGet p.payload "scan_id" = some (PValue.s scan_id))) := by
  constructor
  · constructor
    · intro hall
      intro heq
      exact hall (store ++ mkPoints ids chunks embeddings scan_id)
        (by simp [add_chunks, heq])
    · intro hne newStore hok
      simp [add_chunks, if_pos hne] at hok
  · intro heq
    refine ⟨by simp [add_chunks, heq], ?_, ?_⟩
    · simp [mkPoints, mkPointsAux_length, List.length_zip, heq]
    · intro p hp
      obtain ⟨pr, hpr, hv, hpl⟩ := mkPointsAux_mem ids scan_id 0 _ p hp
      refine ⟨pr, hpr, hv, hpl, ?_⟩
      intro hmeta
      rw [hpl]
      exact chunkPayload_scan_id pr.1 scan_id hmeta

/-- A concrete chunk used by witnesses. -/
def exChunk : Chunk :=
  { content := "x = 1", file_path := "app.py", language := "python",
    start_line := 1, end_line := 1, chunk_index := 0,
    metadata := [("file_size", PValue.n 5), ("lines", PValue.n 1)] }

def exIds : Nat → String := fun _ => "point-id"

theorem add_chunks_contract_witness :
    add_chunks exIds [] [exChunk] [[1]] "scan1"
      = Except.ok ([] ++ mkPoints exIds [exChunk] [[1]] "scan1") ∧
    (mkPoints exIds [exChunk] [[1]] "scan1").length = 1 := by
  have h := (add_chunks_contract exIds [] [exChunk] [[1]] "scan1").2 (by decide)
  exact ⟨h.1, h.2.1⟩

/-- Dot product standing in for the collection's similarity score. -/
def simEx (q v : Vec) : Int := ((q.zip v).map (fun ab => ab.1 * ab.2)).sum

/-- A point indexed by scan `scan1`, language `python`. -/
def ptA : PointStruct :=
  { id := "a", vector := [1],
    payload := [("content", PValue.s "x = 1"), ("file_path", PValue.s "a.py"),
      ("language", PValue.s "python"), ("start_line", PValue.n 1),
      ("end_line", PValue.n 1), ("scan_id", PValue.s "scan1"),
      ("chunk_index", PValue.n 0)] }

/-- A point indexed by a different scan, `scan2`, same language. -/
def ptB : PointStruct :=
  { id := "b", vector := [2],
    payload := [("content", PValue.s "y = 2"), ("file_path", PValue.s "b.py"),
      ("language", PValue.s "python"), ("start_line", PValue.n 1),
      ("end_line", PValue.n 1), ("scan_id", PValue.s "scan2"),
      ("chunk_index", PValue.n 0)] }

/-- C4 counterexample: the per-file context retrieval the orchestrator
performs (scanner.py lines 107-113) filters only on `language`, never on
`scan_id`, so adding another scan's same-language point changes the
retrieved context for the same query. -/
theorem scan_isolation_counterexample :
    dictGet ptB.payload "scan_id" = some (PValue.s "scan2") ∧
    (∀ p ∈ [ptA], dictGet p.payload "scan_id" = some (PValue.s "scan1")) ∧
    VectorStore.search simEx ([ptA] ++ [ptB]) [1] 3 (some [("language", PValue.s "python")])
      ≠ VectorStore.search simEx [ptA] [1] 3 (some [("language", PValue.s "python")]) := by
  refine ⟨by decide, by decide, by decide⟩

/-- C4 amended: context retrieval is not isolated per scan.  The search the
orchestrator runs filters only by `language`, so there exist a store of one
scan's points and a same-language point tagged with a different scan
identifier whose presence changes the retrieved context; the per-point
`scan_id` tag scopes deletion (`delete_scan_data`), not retrieval. -/
theorem scan_isolation_amended :
    ∃ (store : List PointStruct) (p : PointStruct) (q : Vec) (lang : String),
      dictGet p.payload "scan_id" = some (PValue.s "scan2") ∧
      (∀ r ∈ store, dictGet r.payload "scan_id" = some (PValue.s "scan1")) ∧
      VectorStore.search simEx (store ++ [p]) q 3 (some [("language", PValue.s lang)])
        ≠ VectorStore.search simEx store q 3 (some [("language", PValue.s lang)]) :=
  ⟨[ptA], ptB, [1], "python", by decide, by decide, by decide⟩

/-! ### Analysis result schema (`app/core/llm.py` output, `app/models/schemas.py`) -/

/-- One parsed `vulnerabilities` array element.  Every field is optional:
the orchestrator reads them with `.get(...)` defaults (scanner.py lines
197-217). -/
structure VulnItem where
  severity : Option String := none
  title : Option String := none
  description : Option String := none
  start_line : Option Int := none
  end_line : Option Int := none
  rule_id : Option String := none
  cwe_id : Option String := none
  owasp_category : Option String := none
  suggestion : Option String := none
  code_snippet : Option String := none
  fixed_code : Option String := none
deriving DecidableEq, Repr

/-- One parsed `code_review` array element (scanner.py lines 221-238). -/
structure ReviewItem where
  severity : Option String := none
  title : Option String := none
  description : Option String := none
  start_line : Option Int := none
  end_line : Option Int := none
  suggestion : Option String := none
  code_snippet : Option String := none
  fixed_code : Option String := none
deriving DecidableEq, Repr

/-- One parsed `auto_comments` array element (scanner.py lines 241-255). -/
structure CommentItem where
  line : Option Int := none
  comment : Option String := none
deriving DecidableEq, Repr

/-- A successfully parsed analysis response: the three top-level arrays of
the fixed output schema (llm.py lines 113-148), read with `.get(key, [])`
defaults by the orchestrator. -/
structure AnalysisDict where
  vulnerabilities : List VulnItem := []
  code_review : List ReviewItem := []
  auto_comments : List CommentItem := []
deriving DecidableEq, Repr

/-- The all-empty structured result returned when every provider attempt
fails (llm.py lines 76-80). -/
def AnalysisDict.empty : AnalysisDict :=
  { vulnerabilities := [], code_review := [], auto_comments := [] }

/-! ### LLM engine (`app/core/llm.py`) -/

/-- The settings the fallback chain consults (config.py lines 52-60). -/
structure LLMSettings where
  ollama_model : String
  ollama_fallback_model : String
  use_openai_fallback : Bool

/-- An Ollama client: model name and prompt in, parsed analysis out.  An
`Except.error` covers both a transport failure and a JSON-extraction/parse
failure of that attempt (llm.py lines 156-169: generate + `_extract_json` +
`json.loads`, any exception caught alike). -/
abbrev OllamaClient := String → String → Except String AnalysisDict

/-- An OpenAI client: prompt in, parsed analysis out (llm.py lines 187-204);
an error is a transport or parse failure of that attempt. -/
abbrev OpenAIClient := String → Except String AnalysisDict

/-- Prompt construction `_build_analysis_prompt` (llm.py lines 82-152).  The
template text itself is never branched on by any code under verification,
so it is a parameter: any deterministic function of (code, language,
file path, retrieved context) — the source truncates the context to its
first 3 items inside the template. -/
abbrev PromptBuilder := String → String → String → List SearchResult → String

/-- `_analyze_with_ollama` (llm.py lines 154-185): try the primary model;
on failure try the fallback model, but only when its name differs from the
primary's; return `none` when both fail (every exception is caught). -/
def analyze_with_ollama (s : LLMSettings) (client : OllamaClient) (prompt : String) :
    Option AnalysisDict :=
  match client s.ollama_model prompt with
  | Except.ok r => some r
  | Except.error _ =>
    if s.ollama_fallback_model ≠ s.ollama_model then
      match client s.ollama_fallback_model prompt with
      | Except.ok r => some r
      | Except.error _ => none
    else none

/-- The Ollama leg of the fallback chain (llm.py lines 58-65): skipped when
no Ollama client was initialised. -/
def ollamaAttempt (s : LLMSettings) (ollama_client : Option OllamaClient)
    (prompt : String) : Option AnalysisDict :=
  match ollama_client with
  | some oc => analyze_with_ollama s oc prompt
  | none => none

/-- The OpenAI leg of the fallback chain (llm.py lines 68-72): attempted
only when a client is configured and `use_openai_fallback` is set; its own
failure is caught and falls through to the empty result. -/
def openaiAttempt (openai_client : Option OpenAIClient) (enabled : Bool)
    (prompt : String) : AnalysisDict :=
  match openai_client, enabled with
  | some oai, true =>
    (match oai prompt with
      | Except.ok r => r
      | Except.error _ => AnalysisDict.empty)
  | _, _ => AnalysisDict.empty

/-- `analyze_code` (llm.py lines 37-80): build the prompt, try Ollama
(primary then fallback model), then — only if an OpenAI client is configured
and `use_openai_fallback` is set — try OpenAI; if everything fails return
the empty structured result.  The function is total: no failure escapes as
an exception. -/
def analyze_code (s : LLMSettings) (ollama_client : Option OllamaClient)
    (openai_client : Option OpenAIClient) (pb : PromptBuilder)
    (code language file_path : String) (context : List SearchResult) : AnalysisDict :=
  match ollamaAttempt s ollama_client (pb code language file_path context) with
  | some r => r
  | none =>
    openaiAttempt openai_client s.use_openai_fallback (pb code language file_path context)

/-- C5: when every provider attempt fails — the primary Ollama model, the
fallback Ollama model (relevant only when it differs), and the OpenAI
client when configured and enabled — `analyze_code` returns the structured
result with all three finding collections empty, as a normal value; the
embedding is a total function, so no exception can propagate to the
caller. -/
theorem analyze_code_exhausted (s : LLMSettings) (ollama_client : Option OllamaClient)
    (openai_client : Option OpenAIClient) (pb : PromptBuilder)
    (code language file_path : String) (context : List SearchResult)
    (h1 : ∀ oc, ollama_client = some oc →
      ∃ e, oc s.ollama_model (pb code language file_path context) = Except.error e)
    (h2 : ∀ oc, ollama_client = some oc →
      ∃ e, oc s.ollama_fallback_model (pb code language file_path context) = Except.error e)
    (h3 : ∀ oai, openai_client = some oai →
      ∃ e, oai (pb code language file_path context) = Except.error e) :
    (analyze_code s ollama_client openai_client pb code language file_path context).vulnerabilities = [] ∧
    (analyze_code s ollama_client openai_client pb code language file_path context).code_review = [] ∧
    (analyze_code s ollama_client openai_client pb code language file_path context).auto_comments = [] := by
  suffices h : analyze_code s ollama_client openai_client pb code language file_path context
      = AnalysisDict.empty by
    rw [h]
    exact ⟨rfl, rfl, rfl⟩
  have hollama : ∀ (x : Option OllamaClient),
      (∀ oc, x = some oc →
        ∃ e, oc s.ollama_model (pb code language file_path context) = Except.error e) →
      (∀ oc, x = some oc →
        ∃ e, oc s.ollama_fallback_model (pb code language file_path context) = Except.error e) →
      ollamaAttempt s x (pb code language file_path context) = none := by
    intro x hx1 hx2
    cases x with
    | none => rfl
    | some oc =>
      obtain ⟨e1, he1⟩ := hx1 oc rfl
      obtain ⟨e2, he2⟩ := hx2 oc rfl
      simp only [ollamaAttempt, analyze_with_ollama, he1]
      by_cases hm : s.ollama_fallback_model ≠ s.ollama_model
      · rw [if_pos hm, he2]
      · rw [if_neg hm]
  have hempty : ∀ (x : Option OpenAIClient) (b : Bool),
      (∀ oai, x = some oai →
        ∃ e, oai (pb code language file_path context) = Except.error e) →
      openaiAttempt x b (pb code language file_path context) = AnalysisDict.empty := by
    intro x b hx
    cases x with
    | none => cases b <;> rfl
    | some oai =>
      cases b with
      | false => rfl
      | true =>
        obtain ⟨e, he⟩ := hx oai rfl
        simp [openaiAttempt, he]
  unfold analyze_code
  rw [hollama ollama_client h1 h2]
  exact hempty openai_client s.use_openai_fallback h3

/-- Settings used by witnesses: distinct primary/fallback models, OpenAI
fallback enabled. -/
def exSettings : LLMSettings :=
  { ollama_model := "codellama:34b-instruct",
    ollama_fallback_model := "deepseek-coder:33b", use_openai_fallback := true }

/-- A provider that always fails at transport. -/
def failingOllama : OllamaClient := fun _ _ => Except.error "connection refused"

def failingOpenAI : OpenAIClient := fun _ => Except.error "rate limited"

/-- A prompt builder standing in for the long analysis template. -/
def exPB : PromptBuilder := fun code language file_path _ =>
  String.intercalate "\n" [language, file_path, code]

theorem analyze_code_exhausted_witness :
    (analyze_code exSettings (some failingOllama) (some failingOpenAI) exPB
      "def f(p): return p" "python" "app.py" []).vulnerabilities = [] ∧
    (analyze_code exSettings (some failingOllama) (some failingOpenAI) exPB
      "def f(p): return p" "python" "app.py" []).code_review = [] ∧
    (analyze_code exSettings (some failingOllama) (some failingOpenAI) exPB
      "def f(p): return p" "python" "app.py" []).auto_comments = [] := by
  refine analyze_code_exhausted exSettings (some failingOllama) (some failingOpenAI) exPB
    "def f(p): return p" "python" "app.py" [] ?_ ?_ ?_
  · intro oc hoc
    cases hoc
    exact ⟨"connection refused", rfl⟩
  · intro oc hoc
    cases hoc
    exact ⟨"connection refused", rfl⟩
  · intro oai hoai
    cases hoai
    exact ⟨"rate limited", rfl⟩

/-! ### Schemas (`app/models/schemas.py`) -/

/-- `Severity` (schemas.py lines 10-17). -/
inductive Severity where
  | critical
  | high
  | medium
  | low
  | info
deriving DecidableEq, Repr

/-- The string value of each severity member. -/
def Severity.value : Severity → String
  | Severity.critical => "critical"
  | Severity.high => "high"
  | Severity.medium => "medium"
  | Severity.low => "low"
  | Severity.info => "info"

/-- The severity strings accepted by the `Severity` enum. -/
def validSeverities : List String := ["critical", "high", "medium", "low", "info"]

/-- Python `Severity(v)`: the member with that value, or a `ValueError`
when `v` is not one of the five values. -/
def Severity.ofString (v : String) : Except String Severity :=
  if v = "critical" then Except.ok Severity.critical
  else if v = "high" then Except.ok Severity.high
  else if v = "medium" then Except.ok Severity.medium
  else if v = "low" then Except.ok Severity.low
  else if v = "info" then Except.ok Severity.info
  else Except.error "ValueError: not a valid Severity"

/-- Python `str.lower()`: lowercase each character (the two agree on the
ASCII severity strings this pipeline compares). -/
def pyLower (s : String) : String := String.mk (s.data.map Char.toLower)

/-- `IssueType` (schemas.py lines 20-28). -/
inductive IssueType where
  | vulnerability
  | code_review
  | auto_comment
  | security
  | performance
  | best_practice
deriving DecidableEq, Repr

def IssueType.value : IssueType → String
  | IssueType.vulnerability => "vulnerability"
  | IssueType.code_review => "code_review"
  | IssueType.auto_comment => "auto_comment"
  | IssueType.security => "security"
  | IssueType.performance => "performance"
  | IssueType.best_practice => "best_practice"

/-- `ScanStatus` (schemas.py lines 31-37). -/
inductive ScanStatus where
  | pending
  | in_progress
  | completed
  | failed
deriving DecidableEq, Repr

/-- `Location` (schemas.py lines 40-48). -/
structure Location where
  file_path : String
  start_line : Int
  end_line : Int
  start_column : Option Int := none
  end_column : Option Int := none
  function_name : Option String := none
deriving DecidableEq, Repr

/-- `Issue` (schemas.py lines 51-66). -/
structure Issue where
  id : String
  type : IssueType
  severity : Severity
  title : String
  description : String
  location : Location
  rule_id : Option String := none
  cwe_id : Option String := none
  owasp_category : Option String := none
  suggestion : Option String := none
  code_snippet : Option String := none
  fixed_code : Option String := none
  metadata : Metadata := []
deriving DecidableEq, Repr

/-- Summary statistics dict (scanner.py lines 259-285): counts by severity
value and by type value, maintained with Python's
`d[k] = d.get(k, 0) + 1`. -/
structure ScanSummary where
  total_issues : Nat
  by_severity : List (String × Nat)
  by_type : List (String × Nat)
deriving DecidableEq, Repr

/-- The `summary` field of a `ScanResult`: the statistics dict on the
success path (scanner.py line 147), or `{"error": str(e)}` on the failure
path (line 187). -/
inductive Summary where
  | stats (s : ScanSummary)
  | error (msg : String)
deriving DecidableEq, Repr

/-- `ScanResult` (schemas.py lines 96-108).  The two wall-clock timestamps
(`started_at`, `completed_at`) are real-time values with no logical content
and are omitted from the embedding. -/
structure ScanResult where
  scan_id : String
  status : ScanStatus
  repository_url : Option String
  repository_path : Option String
  total_files : Nat
  scanned_files : Nat
  issues : List Issue
  summary : Summary
deriving DecidableEq, Repr

/-! ### Issue conversion (`scanner.py _convert_analysis_to_issues`) -/

/-- One vulnerability item converted to an `Issue` (scanner.py lines
197-218).  `Severity(vuln.get("severity", "medium").lower())` raises
`ValueError` on an unknown severity, which aborts the whole conversion. -/
def convertVuln (id_ : String) (file_path : String) (v : VulnItem) :
    Except String Issue :=
  match Severity.ofString (pyLower (v.severity.getD "medium")) with
  | Except.error e => Except.error e
  | Except.ok sev =>
    Except.ok
      { id := id_, type := IssueType.vulnerability, severity := sev,
        title := v.title.getD "Security vulnerability",
        description := v.description.getD "",
        location :=
          { file_path := file_path, start_line := v.start_line.getD 1,
            end_line := v.end_line.getD (v.start_line.getD 1),
            function_name := none },
        rule_id := v.rule_id, cwe_id := v.cwe_id,
        owasp_category := v.owasp_category, suggestion := v.suggestion,
        code_snippet := v.code_snippet, fixed_code := v.fixed_code }

/-- One code-review item converted to an `Issue` (scanner.py lines
221-238); the severity default is `"info"`. -/
def convertReview (id_ : String) (file_path : String) (r : ReviewItem) :
    Except String Issue :=
  match Severity.ofString (pyLower (r.severity.getD "info")) with
  | Except.error e => Except.error e
  | Except.ok sev =>
    Except.ok
      { id := id_, type := IssueType.code_review, severity := sev,
        title := r.title.getD "Code review finding",
        description := r.description.getD "",
        location :=
          { file_path := file_path, start_line := r.start_line.getD 1,
            end_line := r.end_line.getD (r.start_line.getD 1) },
        suggestion := r.suggestion, code_snippet := r.code_snippet,
        fixed_code := r.fixed_code }

/-- One auto-comment converted to an `Issue` (scanner.py lines 241-255):
always severity `info`, title "Suggested comment". -/
def convertComment (id_ : String) (file_path : String) (c : CommentItem) : Issue :=
  { id := id_, type := IssueType.auto_comment, severity := Severity.info,
    title := "Suggested comment", description := c.comment.getD "",
    location :=
      { file_path := file_path, start_line := c.line.getD 1,
        end_line := c.line.getD 1 } }

/-- The `for vuln in analysis.get("vulnerabilities", [])` append loop; `k`
indexes the freshly generated issue ids. -/
def convertVulns (ids : Nat → String) (file_path : String) :
    Nat → List VulnItem → Except String (List Issue)
  | _, [] => Except.ok []
  | k, v :: rest =>
    match convertVuln (ids k) file_path v with
    | Except.error e => Except.error e
    | Except.ok issue =>
      match convertVulns ids file_path (k + 1) rest with
      | Except.error e => Except.error e
      | Except.ok more => Except.ok (issue :: more)

def convertReviews (ids : Nat → String) (file_path : String) :
    Nat → List ReviewItem → Except String (List Issue)
  | _, [] => Except.ok []
  | k, r :: rest =>
    match convertReview (ids k) file_path r with
    | Except.error e => Except.error e
    | Except.ok issue =>
      match convertReviews ids file_path (k + 1) rest with
      | Except.error e => Except.error e
      | Except.ok more => Except.ok (issue :: more)

def convertComments (ids : Nat → String) (file_path : String) :
    Nat → List CommentItem → List Issue
  | _, [] => []
  | k, c :: rest => convertComment (ids k) file_path c :: convertComments ids file_path (k + 1) rest

/-- `_convert_analysis_to_issues` (scanner.py lines 190-257): vulnerability,
code-review and auto-comment items appended in that order; an invalid
severity raises out of the whole conversion.  The `language` parameter is
accepted and unused, exactly as in the source.  `ids` models the
per-issue `uuid.uuid4()` calls. -/
def convert_analysis_to_issues (ids : Nat → String) (analysis : AnalysisDict)
    (file_path : String) (language : String) : Except String (List Issue) :=
  match convertVulns ids file_path 0 analysis.vulnerabilities with
  | Except.error e => Except.error e
  | Except.ok vulns =>
    match convertReviews ids file_path analysis.vulnerabilities.length analysis.code_review with
    | Except.error e => Except.error e
    | Except.ok reviews =>
      Except.ok (vulns ++ reviews ++
        convertComments ids file_path
          (analysis.vulnerabilities.length + analysis.code_review.length)
          analysis.auto_comments)

/-- Python `d[k] = d.get(k, 0) + 1` on a string-counter dict. -/
def dictIncr (d : List (String × Nat)) (k : String) : List (String × Nat) :=
  if d.any (fun kv => kv.1 == k) then
    d.map (fun kv => if kv.1 == k then (kv.1, kv.2 + 1) else kv)
  else d ++ [(k, 1)]

/-- `_calculate_summary` (scanner.py lines 259-285). -/
def calculate_summary (issues : List Issue) : ScanSummary :=
  { total_issues := issues.length
    by_severity := issues.foldl (fun d i => dictIncr d i.severity.value)
      [("critical", 0), ("high", 0), ("medium", 0), ("low", 0), ("info", 0)]
    by_type := issues.foldl (fun d i => dictIncr d i.type.value)
      [("vulnerability", 0), ("code_review", 0), ("auto_comment", 0)] }

/-! ### Scan orchestrator (`app/scanner/scanner.py`) -/

/-- A file record handed over by the ingestion collaborator
(ingestion.py lines 162-171). -/
structure FileInfo where
  path : String
  content : String
  language : String
  size : Nat
  lines : Nat
deriving DecidableEq, Repr

/-- The orchestrator's environment: the scan identifier, fresh-id
generation, the chunker instance, and the external collaborators.
`clone_repository` and `scan_directory` model the ingestion collaborator's
outcomes (spec §6: acquisition and directory walk are external);
`encodeOne` is the per-text embedding model of `encodeList`; `sim` is the
vector collection's similarity; `upsert_call` models the network outcome of
the qdrant upsert call itself; the two clients and the prompt builder feed
`analyze_code`. -/
structure ScanEnv where
  scan_id : String
  uuid : String → Nat → String
  chunker : CodeChunker
  clone_repository : String → Option String → Except String String
  scan_directory : String → Option (List String) → Option (List String) →
    Except String (List FileInfo)
  encodeOne : String → Except String Vec
  sim : Vec → Vec → Int
  upsert_call : Except String Unit
  ollama_client : Option OllamaClient
  openai_client : Option OpenAIClient
  settings : LLMSettings
  build_prompt : PromptBuilder

/-- Steps 1-4 of `scan` before the per-file loop (scanner.py lines 57-99):
resolve the source, list the files (with the optional explicit file-path
allow-list, skipped when the list is empty — Python truthiness), chunk every
file, batch-embed all chunk texts, and upsert the points tagged with the
scan id into the shared collection.  Any failure aborts the scan. -/
def scanPrelude (env : ScanEnv) (repository_url repository_path branch : Option String)
    (file_paths include_patterns exclude_patterns : Option (List String))
    (store : List PointStruct) : Except String (List FileInfo × List PointStruct) :=
  match (match repository_url with
    | some url => env.clone_repository url branch
    | none =>
      match repository_path with
      | some p => Except.ok p
      | none => Except.error "Either repository_url or repository_path must be provided") with
  | Except.error e => Except.error e
  | Except.ok repo_path =>
    match env.scan_directory repo_path include_patterns exclude_patterns with
    | Except.error e => Except.error e
    | Except.ok files0 =>
      let files :=
        match file_paths with
        | some fps => if fps = [] then files0 else files0.filter (fun f => fps.contains f.path)
        | none => files0
      let all_chunks := files.flatMap (fun f =>
        env.chunker.chunk_file f.content f.path f.language
          [("file_size", PValue.n (f.size : Int)), ("lines", PValue.n (f.lines : Int))])
      match generate_embeddings env.encodeOne (all_chunks.map Chunk.content) with
      | Except.error e => Except.error e
      | Except.ok embeddings =>
        match add_chunks (env.uuid "point") store all_chunks embeddings env.scan_id with
        | Except.error e => Except.error e
        | Except.ok store' =>
          match env.upsert_call with
          | Except.error e => Except.error e
          | Except.ok _ => Except.ok (files, store')

/-- The per-file context retrieval (scanner.py lines 107-113): top-3 points
of the shared collection filtered to the file's language. -/
def scanContext (env : ScanEnv) (store : List PointStruct) (f : FileInfo)
    (emb : Vec) : List SearchResult :=
  VectorStore.search env.sim store emb 3 (some [("language", PValue.s f.language)])

/-- The analysis produced for one file (scanner.py lines 116-121):
`analyze_code` over the file's content with the retrieved context. -/
def scanAnalysis (env : ScanEnv) (store : List PointStruct) (f : FileInfo)
    (emb : Vec) : AnalysisDict :=
  analyze_code env.settings env.ollama_client env.openai_client env.build_prompt
    f.content f.language f.path (scanContext env store f emb)

/-- The body of the per-file `try` block (scanner.py lines 106-128): embed
the file, retrieve context, analyze, convert.  Any `Except.error` is the
exception the surrounding handler catches. -/
def scanFileM (env : ScanEnv) (store : List PointStruct) (f : FileInfo) :
    Except String (List Issue) :=
  match generate_embedding env.encodeOne f.content with
  | Except.error e => Except.error e
  | Except.ok emb =>
    convert_analysis_to_issues (env.uuid f.path) (scanAnalysis env store f emb)
      f.path f.language

def exceptToBool {ε α : Type} : Except ε α → Bool
  | Except.ok _ => true
  | Except.error _ => false

def okIssues : Except String (List Issue) → List Issue
  | Except.ok l => l
  | Except.error _ => []

/-- The per-file loop (scanner.py lines 102-142): accumulate issues and the
`scanned_files` counter; a failed file is logged and skipped. -/
def scanLoop (sf : FileInfo → Except String (List Issue)) :
    List FileInfo → List Issue × Nat
  | [] => ([], 0)
  | f :: rest =>
    let acc := scanLoop sf rest
    match sf f with
    | Except.ok issues => (issues ++ acc.1, acc.2 + 1)
    | Except.error _ => acc

/-- `scan` (scanner.py lines 29-188): run the prelude; on its failure return
the `failed` result with zero counts and the error in the summary (lines
175-188); otherwise run the per-file loop and return the `completed` result
with the aggregated summary (lines 144-173).  The caller always receives a
`ScanResult` — the embedding is a total function. -/
def scan (env : ScanEnv) (repository_url repository_path branch : Option String)
    (file_paths include_patterns exclude_patterns : Option (List String))
    (store : List PointStruct) : ScanResult :=
  match scanPrelude env repository_url repository_path branch file_paths
      include_patterns exclude_patterns store with
  | Except.error e =>
    { scan_id := env.scan_id, status := ScanStatus.failed,
      repository_url := repository_url, repository_path := repository_path,
      total_files := 0, scanned_files := 0, issues := [],
      summary := Summary.error e }
  | Except.ok (files, store') =>
    let acc := scanLoop (scanFileM env store') files
    { scan_id := env.scan_id, status := ScanStatus.completed,
      repository_url := repository_url, repository_path := repository_path,
      total_files := files.length, scanned_files := acc.2, issues := acc.1,
      summary := Summary.stats (calculate_summary acc.1) }

/-! ### Scan orchestrator theorems -/

theorem scanLoop_spec (sf : FileInfo → Except String (List Issue)) (files : List FileInfo) :
    scanLoop sf files = (files.flatMap (fun f => okIssues (sf f)),
      (files.filter (fun f => exceptToBool (sf f))).length) := by
  induction files with
  | nil => rfl
  | cons f rest ih =>
    simp only [scanLoop, ih]
    cases h : sf f with
    | ok issues => simp [okIssues, exceptToBool, h]
    | error e => simp [okIssues, exceptToBool, h]

/-- C7: a failure in any stage before the per-file loop (source resolution,
directory scan, chunking, batch embedding, or indexing — everything
`scanPrelude` comprises) is caught and encoded: the orchestrator returns —
rather than raises — a `failed` ScanResult with zero file counts, no
findings, and the triggering error in the summary. -/
theorem scan_prelude_failure (env : ScanEnv)
    (repository_url repository_path branch : Option String)
    (file_paths include_patterns exclude_patterns : Option (List String))
    (store : List PointStruct) (e : String)
    (h : scanPrelude env repository_url repository_path branch file_paths
        include_patterns exclude_patterns store = Except.error e) :
    scan env repository_url repository_path branch file_paths include_patterns
        exclude_patterns store =
      { scan_id := env.scan_id, status := ScanStatus.failed,
        repository_url := repository_url, repository_path := repository_path,
        total_files := 0, scanned_files := 0, issues := [],
        summary := Summary.error e } := by
  unfold scan
  rw [h]

/-- An environment whose source acquisition fails. -/
def envFail : ScanEnv :=
  { scan_id := "scan-0", uuid := fun _ _ => "id", chunker := exCk,
    clone_repository := fun _ _ => Except.error "git clone failed",
    scan_directory := fun _ _ _ => Except.ok [],
    encodeOne := fun _ => Except.ok [1], sim := simEx,
    upsert_call := Except.ok (), ollama_client := some failingOllama,
    openai_client := none, settings := exSettings, build_prompt := exPB }

theorem scan_prelude_failure_witness :
    scan envFail (some "https://github.com/x/y") none none none none none [] =
      { scan_id := "scan-0", status := ScanStatus.failed,
        repository_url := some "https://github.com/x/y", repository_path := none,
        total_files := 0, scanned_files := 0, issues := [],
        summary := Summary.error "git clone failed" } :=
  scan_prelude_failure envFail (some "https://github.com/x/y") none none none none none
    [] "git clone failed" (by rfl)

/-- C8: when the prelude succeeds, per-file failures are caught: the scan
still finalizes as `completed`, `scanned_files` counts exactly the files
whose analysis succeeded, and the findings are exactly those of the
successful files, in file order. -/
theorem scan_per_file_failure (env : ScanEnv)
    (repository_url repository_path branch : Option String)
    (file_paths include_patterns exclude_patterns : Option (List String))
    (store : List PointStruct) (files : List FileInfo) (store' : List PointStruct)
    (hpre : scanPrelude env repository_url repository_path branch file_paths
        include_patterns exclude_patterns store = Except.ok (files, store'))
    (hfail : ∃ f ∈ files, exceptToBool (scanFileM env store' f) = false) :
    (scan env repository_url repository_path branch file_paths include_patterns
        exclude_patterns store).status = ScanStatus.completed ∧
    (scan env repository_url repository_path branch file_paths include_patterns
        exclude_patterns store).total_files = files.length ∧
    (scan env repository_url repository_path branch file_paths include_patterns
        exclude_patterns store).scanned_files
      = (files.filter (fun f => exceptToBool (scanFileM env store' f))).length ∧
    (scan env repository_url repository_path branch file_paths include_patterns
        exclude_patterns store).issues
      = files.flatMap (fun f => okIssues (scanFileM env store' f)) := by
  unfold scan
  rw [hpre]
  refine ⟨?_, ?_, ?_, ?_⟩ <;> simp [scanLoop_spec]

/-- Analysis carrying a vulnerability with an unrecognised severity. -/
def badAnalysis : AnalysisDict :=
  { vulnerabilities := [{ severity := some "wontfix", title := some "Broken finding" }],
    code_review := [], auto_comments := [] }

def file1 : FileInfo :=
  { path := "f1.py", content := "a = 1", language := "python", size := 5, lines := 1 }

def file2 : FileInfo :=
  { path := "f2.py", content := "b = 2", language := "python", size := 5, lines := 1 }

def file3 : FileInfo :=
  { path := "f3.py", content := "c = 3", language := "python", size := 5, lines := 1 }

/-- A three-file environment whose provider returns the invalid-severity
analysis for the second file and the empty analysis otherwise. -/
def env3 : ScanEnv :=
  { scan_id := "scan-1", uuid := fun _ _ => "id", chunker := exCk,
    clone_repository := fun _ _ => Except.ok "/tmp/repo",
    scan_directory := fun _ _ _ => Except.ok [file1, file2, file3],
    encodeOne := fun _ => Except.ok [1], sim := simEx, upsert_call := Except.ok (),
    ollama_client := some (fun _ prompt =>
      if prompt = "f2.py" then Except.ok badAnalysis else Except.ok AnalysisDict.empty),
    openai_client := none, settings := exSettings,
    build_prompt := fun _ _ file_path _ => file_path }

/-- The shared collection contents after `env3`'s prelude. -/
def env3Store : List PointStruct :=
  match scanPrelude env3 none (some "/tmp/repo") none none none none [] with
  | Except.ok pr => pr.2
  | Except.error _ => []

theorem scan_per_file_failure_witness :
    (scan env3 none (some "/tmp/repo") none none none none []).status
      = ScanStatus.completed ∧
    (scan env3 none (some "/tmp/repo") none none none none []).total_files = 3 ∧
    (scan env3 none (some "/tmp/repo") none none none none []).scanned_files = 2 := by
  have h := scan_per_file_failure env3 none (some "/tmp/repo") none none none none []
    [file1, file2, file3] env3Store (by decide) (by decide)
  exact ⟨h.1, h.2.1.trans (by decide), h.2.2.1.trans (by decide)⟩

/-! ### Invalid severity handling (C10) -/

theorem ofString_invalid (v : String) (h : v ∉ validSeverities) :
    Severity.ofString v = Except.error "ValueError: not a valid Severity" := by
  simp only [validSeverities, List.mem_cons, List.not_mem_nil, or_false, not_or] at h
  obtain ⟨h1, h2, h3, h4, h5⟩ := h
  simp [Severity.ofString, h1, h2, h3, h4, h5]

theorem convertVuln_error_of_invalid (id_ fp : String) (v : VulnItem)
    (h : pyLower (v.severity.getD "medium") ∉ validSeverities) :
    convertVuln id_ fp v = Except.error "ValueError: not a valid Severity" := by
  unfold convertVuln
  rw [ofString_invalid _ h]

theorem ofString_valid (v : String) (h : v ∈ validSeverities) :
    ∃ sev, Severity.ofString v = Except.ok sev := by
  simp only [validSeverities, List.mem_cons, List.not_mem_nil, or_false] at h
  rcases h with h | h | h | h | h <;> subst h <;> exact ⟨_, rfl⟩

theorem convertVuln_ok_of_valid (id_ fp : String) (v : VulnItem)
    (h : pyLower (v.severity.getD "medium") ∈ validSeverities) :
    ∃ i, convertVuln id_ fp v = Except.ok i := by
  obtain ⟨sev, hsev⟩ := ofString_valid _ h
  cases hc : convertVuln id_ fp v with
  | ok i => exact ⟨i, rfl⟩
  | error e =>
    unfold convertVuln at hc
    rw [hsev] at hc
    simp at hc

theorem convertReview_error_of_invalid (id_ fp : String) (r : ReviewItem)
    (h : pyLower (r.severity.getD "info") ∉ validSeverities) :
    convertReview id_ fp r = Except.error "ValueError: not a valid Severity" := by
  unfold convertReview
  rw [ofString_invalid _ h]

theorem convertReview_ok_of_valid (id_ fp : String) (r : ReviewItem)
    (h : pyLower (r.severity.getD "info") ∈ validSeverities) :
    ∃ i, convertReview id_ fp r = Except.ok i := by
  obtain ⟨sev, hsev⟩ := ofString_valid _ h
  cases hc : convertReview id_ fp r with
  | ok i => exact ⟨i, rfl⟩
  | error e =>
    unfold convertReview at hc
    rw [hsev] at hc
    simp at hc

theorem convertVulns_error (ids : Nat → String) (fp : String) :
    ∀ (k : Nat) (l : List VulnItem),
      (∃ v ∈ l, pyLower (v.severity.getD "medium") ∉ validSeverities) →
      ∃ e, convertVulns ids fp k l = Except.error e := by
  intro k l
  induction l generalizing k with
  | nil => intro h; simp at h
  | cons v rest ih =>
    intro h
    rcases h with ⟨w, hw, hbad⟩
    rcases List.mem_cons.mp hw with rfl | hwrest
    · refine ⟨"ValueError: not a valid Severity", ?_⟩
      simp only [convertVulns, convertVuln_error_of_invalid (ids k) fp w hbad]
    · by_cases hv : pyLower (v.severity.getD "medium") ∈ validSeverities
      · obtain ⟨i, hi⟩ := convertVuln_ok_of_valid (ids k) fp v hv
        obtain ⟨e, he⟩ := ih (k + 1) ⟨w, hwrest, hbad⟩
        exact ⟨e, by simp [convertVulns, hi, he]⟩
      · refine ⟨"ValueError: not a valid Severity", ?_⟩
        simp only [convertVulns, convertVuln_error_of_invalid (ids k) fp v hv]

theorem convertReviews_error (ids : Nat → String) (fp : String) :
    ∀ (k : Nat) (l : List ReviewItem),
      (∃ r ∈ l, pyLower (r.severity.getD "info") ∉ validSeverities) →
      ∃ e, convertReviews ids fp k l = Except.error e := by
  intro k l
  induction l generalizing k with
  | nil => intro h; simp at h
  | cons r rest ih =>
    intro h
    rcases h with ⟨w, hw, hbad⟩
    rcases List.mem_cons.mp hw with rfl | hwrest
    · refine ⟨"ValueError: not a valid Severity", ?_⟩
      simp only [convertReviews, convertReview_error_of_invalid (ids k) fp w hbad]
    · by_cases hr : pyLower (r.severity.getD "info") ∈ validSeverities
      · obtain ⟨i, hi⟩ := convertReview_ok_of_valid (ids k) fp r hr
        obtain ⟨e, he⟩ := ih (k + 1) ⟨w, hwrest, hbad⟩
        exact ⟨e, by simp [convertReviews, hi, he]⟩
      · refine ⟨"ValueError: not a valid Severity", ?_⟩
        simp only [convertReviews, convertReview_error_of_invalid (ids k) fp r hr]

theorem convert_error_of_bad (ids : Nat → String) (analysis : AnalysisDict)
    (fp lang : String)
    (h : (∃ v ∈ analysis.vulnerabilities,
            pyLower (v.severity.getD "medium") ∉ validSeverities) ∨
         (∃ r ∈ analysis.code_review,
            pyLower (r.severity.getD "info") ∉ validSeverities)) :
    ∃ e, convert_analysis_to_issues ids analysis fp lang = Except.error e := by
  rcases h with h | h
  · obtain ⟨e, he⟩ := convertVulns_error ids fp 0 _ h
    exact ⟨e, by simp [convert_analysis_to_issues, he]⟩
  · cases hv : convertVulns ids fp 0 analysis.vulnerabilities with
    | error e => exact ⟨e, by simp [convert_analysis_to_issues, hv]⟩
    | ok vulns =>
      obtain ⟨e, he⟩ := convertReviews_error ids fp analysis.vulnerabilities.length _ h
      exact ⟨e, by simp [convert_analysis_to_issues, hv, he]⟩

/-- C10: an analysis item (vulnerability or code-review) whose lowercased
severity string is not one of critical/high/medium/low/info makes the
conversion raise; the per-file handler then discards every finding of that
file — well-formed items included — and does not count the file in
`scanned_files`, while the scan still finalizes as `completed`. -/
theorem invalid_severity_skips_file (env : ScanEnv)
    (repository_url repository_path branch : Option String)
    (file_paths include_patterns exclude_patterns : Option (List String))
    (store : List PointStruct) (files : List FileInfo) (store' : List PointStruct)
    (f : FileInfo) (emb : Vec)
    (hpre : scanPrelude env repository_url repository_path branch file_paths
        include_patterns exclude_patterns store = Except.ok (files, store'))
    (hf : f ∈ files)
    (hemb : generate_embedding env.encodeOne f.content = Except.ok emb)
    (hbad : (∃ v ∈ (scanAnalysis env store' f emb).vulnerabilities,
              pyLower (v.severity.getD "medium") ∉ validSeverities) ∨
            (∃ r ∈ (scanAnalysis env store' f emb).code_review,
              pyLower (r.severity.getD "info") ∉ validSeverities)) :
    (∃ e, convert_analysis_to_issues (env.uuid f.path) (scanAnalysis env store' f emb)
        f.path f.language = Except.error e) ∧
    exceptToBool (scanFileM env store' f) = false ∧
    (scan env repository_url repository_path branch file_paths include_patterns
        exclude_patterns store).status = ScanStatus.completed ∧
    (scan env repository_url repository_path branch file_paths include_patterns
        exclude_patterns store).scanned_files
      = (files.filter (fun g => exceptToBool (scanFileM env store' g))).length ∧
    (scan env repository_url repository_path branch file_paths include_patterns
        exclude_patterns store).issues
      = files.flatMap (fun g => okIssues (scanFileM env store' g)) := by
  obtain ⟨e, he⟩ := convert_error_of_bad (env.uuid f.path) _ f.path f.language hbad
  have hsf : scanFileM env store' f = Except.error e := by
    unfold scanFileM
    rw [hemb]
    exact he
  refine ⟨⟨e, he⟩, by simp [exceptToBool, hsf], ?_, ?_, ?_⟩
  · unfold scan
    rw [hpre]
  · unfold scan
    rw [hpre]
    simp [scanLoop_spec]
  · unfold scan
    rw [hpre]
    simp [scanLoop_spec]

theorem invalid_severity_skips_file_witness :
    exceptToBool (scanFileM env3 env3Store file2) = false ∧
    (scan env3 none (some "/tmp/repo") none none none none []).status
      = ScanStatus.completed ∧
    (scan env3 none (some "/tmp/repo") none none none none []).scanned_files = 2 := by
  have h := invalid_severity_skips_file env3 none (some "/tmp/repo") none none none none
    [] [file1, file2, file3] env3Store file2 [1] (by decide) (by decide) (by decide)
    (Or.inl (by decide))
  exact ⟨h.2.1, h.2.2.1, h.2.2.2.1.trans (by decide)⟩

end CodeGuard
